import Mathlib

/-!
Verification development for the fme-packager validation engine.

This file gives a shallow embedding, in Lean 4, of the pure core of
`fme_packager`: the pipe-delimited format-info decoder
(`fme_packager/operations.py`), the fpkg filename assembler/splitter
(`fme_packager/operations.py`), the transformer-dialect
data-processing-type resolvers (`fme_packager/transformer.py`), the
custom-transformer header decoder (`fme_packager/transformer.py`), the
Python-compatibility predicate and `validate_transformer`
(`fme_packager/packager.py`), and the help-index derivation and
validation (`fme_packager/help.py`).

Python strings are modelled as Lean `String` (whose `data` field is the
list of characters); Python text primitives (`split`, `strip`,
`partition`, `replace`, `int(...)`) are modelled by executable functions
on `List Char` defined below.  Code paths on which Python raises an
exception are modelled with `Option`/`Except` results.
-/

/-! ## Python text primitives -/

/-- Characters stripped by Python's `str.strip()` (the ASCII whitespace
set; exotic Unicode space characters are not modelled). -/
def pyIsSpace (c : Char) : Bool :=
  c = ' ' || c = '\t' || c = '\n' || c = '\r' || c = '\x0b' || c = '\x0c'

/-- Python `str.strip()`: drop whitespace from both ends. -/
def pyStrip (l : List Char) : List Char :=
  ((l.dropWhile pyIsSpace).reverse.dropWhile pyIsSpace).reverse

/-- Python `str.lstrip(c)` for a single strip character. -/
def pyLStrip (sep : Char) (l : List Char) : List Char :=
  l.dropWhile (fun c => c = sep)

/-- ASCII lowering of one character (the identifiers and extensions the
source lowers are ASCII; full Unicode case folding is not modelled). -/
def pyLowerChar (c : Char) : Char :=
  if 65 ≤ c.toNat ∧ c.toNat ≤ 90 then Char.ofNat (c.toNat + 32) else c

/-- Python `str.lower()` on ASCII text. -/
def pyLower (s : String) : String := ⟨s.data.map pyLowerChar⟩

/-- Python `str.split(sep)` for a one-character separator: splitting the
empty string yields one empty group, and separators at either end yield
empty groups. -/
def splitSep (sep : Char) : List Char → List (List Char)
  | [] => [[]]
  | c :: cs =>
    match splitSep sep cs with
    | [] => [[]]
    | g :: gs => if c = sep then [] :: g :: gs else (c :: g) :: gs

/-- Inverse of `splitSep`: join groups with the separator. -/
def joinSep (sep : Char) : List (List Char) → List Char
  | [] => []
  | [g] => g
  | g :: gs => g ++ sep :: joinSep sep gs

/-- Does the second list start with the first (Python `str.startswith`)? -/
def leadsWith : List Char → List Char → Bool
  | [], _ => true
  | _ :: _, [] => false
  | p :: ps, c :: cs => p = c && leadsWith ps cs

/-- Fuel-indexed worker for `removeAll`; every step consumes at least
one character, so fuel `l.length + 1` always suffices. -/
def removeAllAux (pat : List Char) : Nat → List Char → List Char
  | 0, l => l
  | _ + 1, [] => []
  | fuel + 1, c :: cs =>
    if 0 < pat.length && leadsWith pat (c :: cs) then
      removeAllAux pat fuel ((c :: cs).drop pat.length)
    else c :: removeAllAux pat fuel cs

/-- Python `str.replace(old, new)` with `new = ""`: remove every
occurrence of the (non-empty) pattern. -/
def removeAll (pat : List Char) (l : List Char) : List Char :=
  removeAllAux pat (l.length + 1) l

/-- Python `str.partition(sep)` for a one-character separator, keeping the
text before the first occurrence and the text after it.  When the
separator is absent the whole string is the first component and the
second is empty (exactly Python's `(s, "", "")`). -/
def pyPartitionCh (sep : Char) : List Char → List Char × List Char
  | [] => ([], [])
  | c :: cs =>
    if c = sep then ([], cs)
    else
      let p := pyPartitionCh sep cs
      (c :: p.1, p.2)

/-- Python `str.rpartition(sep)` for a one-character separator.  When the
separator is absent the whole string is the LAST component and the first
is empty (Python's `("", "", s)`). -/
def pyRPartitionCh (sep : Char) (l : List Char) : List Char × List Char :=
  if sep ∈ l then
    let p := pyPartitionCh sep l.reverse
    (p.2.reverse, p.1.reverse)
  else ([], l)

/-- Python `int(s)` on strings: surrounding whitespace, an optional sign,
then one or more ASCII digits (digit-group underscores are not
modelled).  Returns `none` where Python raises `ValueError`. -/
def pyIntOfString (s : String) : Option Int :=
  let t := pyStrip s.data
  let core : Option (Bool × List Char) :=
    match t with
    | '-' :: rest => some (true, rest)
    | '+' :: rest => some (false, rest)
    | _ => some (false, t)
  match core with
  | some (neg, ds) =>
    if ds = [] || !ds.all Char.isDigit then none
    else
      let n : Nat := ds.foldl (fun acc c => acc * 10 + (c.toNat - 48)) 0
      some (if neg then -(n : Int) else (n : Int))
  | none => none

/-! ## `fme_packager/operations.py`: fpkg filenames -/

/-- Errors raised by the fpkg filename functions. -/
inductive FpkgNameError where
  | wrongExtension (actual : String)
  | unrecognizedName (name : String)
  | emptyPart
deriving DecidableEq, Repr

/-- `build_fpkg_filename(publisher_uid, package_uid, version)`:
`"{}.{}-{}.fpkg"`, raising when any part is empty. -/
def build_fpkg_filename (publisher_uid package_uid version : String) :
    Except FpkgNameError String :=
  if publisher_uid = "" || package_uid = "" || version = "" then
    .error .emptyPart
  else
    .ok (publisher_uid ++ "." ++ package_uid ++ "-" ++ version ++ ".fpkg")

/-- `split_fpkg_filename(filename)`: partition at the FIRST `.` (as the
source does), demand the tail be exactly `fpkg`, then partition the head
at its first `.` and rpartition at the last `-`. -/
def split_fpkg_filename (filename : String) :
    Except FpkgNameError (String × String × String) :=
  let p1 := pyPartitionCh '.' filename.data
  let name := p1.1
  let extension := p1.2
  if extension ≠ "fpkg".data then .error (.wrongExtension ⟨extension⟩)
  else
    let p2 := pyPartitionCh '.' name
    let publisher_uid := p2.1
    let right := p2.2
    let p3 := pyRPartitionCh '-' right
    let package_uid := p3.1
    let version := p3.2
    if publisher_uid = [] || package_uid = [] || version = [] then
      .error (.unrecognizedName ⟨name⟩)
    else .ok (⟨publisher_uid⟩, ⟨package_uid⟩, ⟨version⟩)

/-! ## `fme_packager/operations.py`: format-info records -/

/-- The pipe-delimited header constant `FORMATINFO_HDR`. -/
def FORMATINFO_HDR : String :=
  "FORMAT_NAME|FORMAT_LONG_NAME|DATASET_TYPE|DIRECTION|AUTOMATED_TRANSLATION_FLAG|COORDSYS_AWARE|FILTER|FORMAT_TYPE|USE_NATIVE_SPATIAL_INDEX|SOURCE_SETTINGS|DESTINATION_SETTINGS|VISIBLE|MIN_VERSION|MAX_VERSION|FORMAT_FAMILY|HAS_SIDECARS|MARKETING_FAMILY|FORMAT_CATEGORIES"

/-- `OPTIONAL_FORMATINFO_COLUMNS = ["FORMAT_CATEGORIES"]`. -/
def OPTIONAL_FORMATINFO_COLUMNS : List String := ["FORMAT_CATEGORIES"]

/-- `num_columns`: the field count of the header. -/
def numColumns : Nat := (splitSep '|' FORMATINFO_HDR.data).length

/-- `num_required_columns`: total columns minus the optional ones. -/
def numRequiredColumns : Nat := numColumns - OPTIONAL_FORMATINFO_COLUMNS.length

/-- The `FormatInfo` named tuple: 17 required fields plus the optional
`FORMAT_CATEGORIES` defaulting to the empty string. -/
structure FormatInfo where
  FORMAT_NAME : String
  FORMAT_LONG_NAME : String
  DATASET_TYPE : String
  DIRECTION : String
  AUTOMATED_TRANSLATION_FLAG : String
  COORDSYS_AWARE : String
  FILTER : String
  FORMAT_TYPE : String
  USE_NATIVE_SPATIAL_INDEX : String
  SOURCE_SETTINGS : String
  DESTINATION_SETTINGS : String
  VISIBLE : String
  MIN_VERSION : String
  MAX_VERSION : String
  FORMAT_FAMILY : String
  HAS_SIDECARS : String
  MARKETING_FAMILY : String
  FORMAT_CATEGORIES : String
deriving DecidableEq, Repr

/-- Positional construction `FormatInfo(*parts)`; the caller guarantees 17
or 18 parts, and a missing 18th part defaults to `""`. -/
def FormatInfo.ofParts (parts : List String) : FormatInfo where
  FORMAT_NAME := parts.getD 0 ""
  FORMAT_LONG_NAME := parts.getD 1 ""
  DATASET_TYPE := parts.getD 2 ""
  DIRECTION := parts.getD 3 ""
  AUTOMATED_TRANSLATION_FLAG := parts.getD 4 ""
  COORDSYS_AWARE := parts.getD 5 ""
  FILTER := parts.getD 6 ""
  FORMAT_TYPE := parts.getD 7 ""
  USE_NATIVE_SPATIAL_INDEX := parts.getD 8 ""
  SOURCE_SETTINGS := parts.getD 9 ""
  DESTINATION_SETTINGS := parts.getD 10 ""
  VISIBLE := parts.getD 11 ""
  MIN_VERSION := parts.getD 12 ""
  MAX_VERSION := parts.getD 13 ""
  FORMAT_FAMILY := parts.getD 14 ""
  HAS_SIDECARS := parts.getD 15 ""
  MARKETING_FAMILY := parts.getD 16 ""
  FORMAT_CATEGORIES := parts.getD 17 ""

/-- The 17 required field values of a record, in header order. -/
def FormatInfo.requiredFields (fi : FormatInfo) : List String :=
  [fi.FORMAT_NAME, fi.FORMAT_LONG_NAME, fi.DATASET_TYPE, fi.DIRECTION,
   fi.AUTOMATED_TRANSLATION_FLAG, fi.COORDSYS_AWARE, fi.FILTER,
   fi.FORMAT_TYPE, fi.USE_NATIVE_SPATIAL_INDEX, fi.SOURCE_SETTINGS,
   fi.DESTINATION_SETTINGS, fi.VISIBLE, fi.MIN_VERSION, fi.MAX_VERSION,
   fi.FORMAT_FAMILY, fi.HAS_SIDECARS, fi.MARKETING_FAMILY]

/-- All 18 field values of a record, in header order. -/
def FormatInfo.allFields (fi : FormatInfo) : List String :=
  fi.requiredFields ++ [fi.FORMAT_CATEGORIES]

/-- Join a list of field values with `|`. -/
def joinFieldsPipe (fields : List String) : String :=
  ⟨joinSep '|' (fields.map String.data)⟩

/-- `parse_formatinfo(line)`: strip, split on `|`, demand 17 or 18 fields
(else the error reports the actual count and the required minimum), and
build the record positionally. -/
def parse_formatinfo (line : String) : Except (Nat × Nat) FormatInfo :=
  let parts := (splitSep '|' (pyStrip line.data)).map String.mk
  if parts.length = numColumns || parts.length = numRequiredColumns then
    .ok (FormatInfo.ofParts parts)
  else
    .error (parts.length, numRequiredColumns)

/-! ## A model of `json.loads`

The transformer module feeds `data_processing_type` values to Python's
`json.loads`.  `JValue` models the parsed JSON documents and
`jsonLoads` models the parser (strict JSON: no `NaN`/`Infinity`
extensions, surrogate pairs unmodelled, numbers as exact rationals). -/

inductive JValue where
  | jnull
  | jbool (b : Bool)
  | jnum (q : Rat)
  | jstr (s : String)
  | jarr (elems : List JValue)
  | jobj (members : List (String × JValue))
deriving Repr

/-- JSON inter-token whitespace (`' '`, `'\t'`, `'\n'`, `'\r'`). -/
def jsonWs (c : Char) : Bool :=
  c = ' ' || c = '\t' || c = '\n' || c = '\r'

/-- Drop leading JSON whitespace. -/
def skipWs (l : List Char) : List Char := l.dropWhile jsonWs

/-- Value of a hexadecimal digit. -/
def hexVal (c : Char) : Option Nat :=
  if c.isDigit then some (c.toNat - 48)
  else if 'a' ≤ c ∧ c ≤ 'f' then some (c.toNat - 87)
  else if 'A' ≤ c ∧ c ≤ 'F' then some (c.toNat - 55)
  else none

/-- Body of a JSON string after the opening quote: returns the decoded
content and the input following the closing quote.  Unescaped control
characters are rejected, as in Python's strict default mode. -/
def parseStringBody : List Char → Option (List Char × List Char)
  | [] => none
  | '"' :: rest => some ([], rest)
  | '\\' :: e :: rest =>
    if e = 'u' then
      match rest with
      | a :: b :: c :: d :: rest2 =>
        match hexVal a, hexVal b, hexVal c, hexVal d with
        | some ha, some hb, some hc, some hd =>
          (parseStringBody rest2).map fun p =>
            (Char.ofNat (((ha * 16 + hb) * 16 + hc) * 16 + hd) :: p.1, p.2)
        | _, _, _, _ => none
      | _ => none
    else
      match
        (if e = '"' then some '"'
         else if e = '\\' then some '\\'
         else if e = '/' then some '/'
         else if e = 'b' then some '\x08'
         else if e = 'f' then some '\x0c'
         else if e = 'n' then some '\n'
         else if e = 'r' then some '\r'
         else if e = 't' then some '\t'
         else none) with
      | some c => (parseStringBody rest).map fun p => (c :: p.1, p.2)
      | none => none
  | c :: rest =>
    if c.toNat < 32 then none
    else (parseStringBody rest).map fun p => (c :: p.1, p.2)

/-- Longest leading run of decimal digits, and the rest. -/
def takeDigits (l : List Char) : List Char × List Char :=
  (l.takeWhile Char.isDigit, l.dropWhile Char.isDigit)

/-- Numeric value of a digit string. -/
def digitsToNat (ds : List Char) : Nat :=
  ds.foldl (fun a c => a * 10 + (c.toNat - 48)) 0

/-- JSON integer part: a lone `0` or a nonzero digit followed by digits
(leading zeros are a parse error in JSON). -/
def parseIntPart : List Char → Option (List Char × List Char)
  | '0' :: r => some (['0'], r)
  | c :: r =>
    if c.isDigit then
      let t := takeDigits r
      some (c :: t.1, t.2)
    else none
  | [] => none

/-- JSON fraction part: `.` then digits; absent means zero.  Returns the
fraction value, the number of fraction digits, and the rest. -/
def parseFracPart (l : List Char) : Option (Nat × Nat × List Char) :=
  match l with
  | '.' :: r =>
    let t := takeDigits r
    if t.1 = [] then none else some (digitsToNat t.1, t.1.length, t.2)
  | _ => some (0, 0, l)

/-- JSON exponent part: `e`/`E`, optional sign, digits; absent means 0. -/
def parseExpPart (l : List Char) : Option (Int × List Char) :=
  match l with
  | c :: r =>
    if c = 'e' || c = 'E' then
      let (neg, r1) :=
        match r with
        | '-' :: r2 => (true, r2)
        | '+' :: r2 => (false, r2)
        | _ => (false, r)
      let t := takeDigits r1
      if t.1 = [] then none
      else some ((if neg then -(digitsToNat t.1 : Int) else (digitsToNat t.1 : Int)), t.2)
    else some (0, l)
  | [] => some (0, l)

/-- Exact rational value of a decimal literal
`m * 10 ^ (exp - fracLen)` where `m` carries the fraction digits. -/
def decimalToRat (m : Int) (fracLen : Nat) (exp : Int) : Rat :=
  if 0 ≤ exp then mkRat (m * (10 : Int) ^ exp.toNat) ((10 : Nat) ^ fracLen)
  else mkRat m ((10 : Nat) ^ (fracLen + exp.natAbs))

/-- A JSON number: optional minus, integer part, fraction, exponent. -/
def parseNumberTok (l : List Char) : Option (Rat × List Char) :=
  let (neg, l1) := match l with | '-' :: r => (true, r) | _ => (false, l)
  match parseIntPart l1 with
  | none => none
  | some (ids, l2) =>
    match parseFracPart l2 with
    | none => none
    | some (fv, fl, l3) =>
      match parseExpPart l3 with
      | none => none
      | some (e, l4) =>
        let mag : Int := (digitsToNat ids * 10 ^ fl + fv : Nat)
        some (decimalToRat (if neg then -mag else mag) fl e, l4)

mutual

/-- One JSON value (fuel-indexed recursive-descent). -/
def parseJValue : Nat → List Char → Option (JValue × List Char)
  | 0, _ => none
  | Nat.succ fuel, l =>
    match l with
    | [] => none
    | c :: rest =>
      if c = 'n' then
        if leadsWith "null".data l then some (.jnull, l.drop 4) else none
      else if c = 't' then
        if leadsWith "true".data l then some (.jbool true, l.drop 4) else none
      else if c = 'f' then
        if leadsWith "false".data l then some (.jbool false, l.drop 5) else none
      else if c = '"' then
        (parseStringBody rest).map fun p => (.jstr ⟨p.1⟩, p.2)
      else if c = '[' then
        match skipWs rest with
        | ']' :: r2 => some (.jarr [], r2)
        | r1 => (parseElems fuel r1).map fun p => (.jarr p.1, p.2)
      else if c.toNat = 123 then
        let r1 := skipWs rest
        match r1 with
        | d :: r2 => if d.toNat = 125 then some (.jobj [], r2)
                     else (parseMembers fuel r1).map fun p => (.jobj p.1, p.2)
        | [] => none
      else if c = '-' || c.isDigit then
        (parseNumberTok l).map fun p => (.jnum p.1, p.2)
      else none

/-- Comma-separated JSON array elements up to the closing bracket. -/
def parseElems : Nat → List Char → Option (List JValue × List Char)
  | 0, _ => none
  | Nat.succ fuel, l =>
    match parseJValue fuel (skipWs l) with
    | none => none
    | some (v, r) =>
      match skipWs r with
      | ',' :: r2 => (parseElems fuel r2).map fun p => (v :: p.1, p.2)
      | ']' :: r2 => some ([v], r2)
      | _ => none

/-- Comma-separated JSON object members up to the closing brace. -/
def parseMembers : Nat → List Char → Option (List (String × JValue) × List Char)
  | 0, _ => none
  | Nat.succ fuel, l =>
    match skipWs l with
    | '"' :: r =>
      match parseStringBody r with
      | none => none
      | some (k, r2) =>
        match skipWs r2 with
        | ':' :: r3 =>
          match parseJValue fuel (skipWs r3) with
          | none => none
          | some (v, r4) =>
            match skipWs r4 with
            | ',' :: r5 => (parseMembers fuel r5).map fun p => ((⟨k⟩, v) :: p.1, p.2)
            | d :: r5 => if d.toNat = 125 then some ([(⟨k⟩, v)], r5) else none
            | [] => none
        | _ => none
    | _ => none

end

/-- Model of `json.loads`: skip surrounding whitespace, parse one value,
reject trailing garbage.  `none` models `json.JSONDecodeError`. -/
def jsonLoads (s : String) : Option JValue :=
  match parseJValue (s.data.length + 2) (skipWs s.data) with
  | some (v, rest) => if skipWs rest = [] then some v else none
  | none => none

/-! ## `fme_packager/transformer.py`: data-processing-type resolution -/

/-- Python truthiness of a parsed JSON value. -/
def pyTruthy : JValue → Bool
  | .jnull => false
  | .jbool b => b
  | .jnum q => decide (q ≠ 0)
  | .jstr s => decide (s ≠ "")
  | .jarr [] => false
  | .jarr (_ :: _) => true
  | .jobj [] => false
  | .jobj (_ :: _) => true

/-- `dict.get(k)` over the member list of a JSON object: a duplicate key
in the literal overwrites the earlier one, so the last binding wins. -/
def jlookup (kvs : List (String × JValue)) (k : String) : Option JValue :=
  (kvs.reverse.find? (fun p => p.1 = k)).map (·.2)

/-- Iterating the value of the `"if"` key (default `[]` when absent).
`none` models the `TypeError`/`AttributeError` Python raises when the
value is not iterable, or when iterating it yields non-dict entries
(a non-empty string yields characters, a non-empty dict yields keys;
either way `.get` on the first entry raises). -/
def ifEntries : Option JValue → Option (List JValue)
  | none => some []
  | some (.jarr xs) => some xs
  | some (.jstr s) => if s = "" then some [] else none
  | some (.jobj []) => some []
  | some (.jobj (_ :: _)) => none
  | some _ => none

/-- The truthy `"then"` values of the entries of the `"if"` list, in
order; `none` models the `AttributeError` raised on a non-dict entry. -/
def thenOf : List JValue → Option (List JValue)
  | [] => some []
  | .jobj kvs :: rest =>
    match jlookup kvs "then" with
    | some v => if pyTruthy v then (thenOf rest).map (v :: ·) else thenOf rest
    | none => thenOf rest
  | _ :: _ => none

/-- All conditional-type tags of a JSON object value: truthy `then`
values of the `"if"` entries plus a truthy `"default"` value. -/
def collectTags (kvs : List (String × JValue)) : Option (List JValue) :=
  (ifEntries (jlookup kvs "if")).bind fun entries =>
    (thenOf entries).map fun thens =>
      match jlookup kvs "default" with
      | some d => if pyTruthy d then thens ++ [d] else thens
      | none => thens

/-- Code-point-wise lexicographic `<` on character lists, the order
Python's `sorted` uses on `str` values. -/
def charListLt : List Char → List Char → Bool
  | [], [] => false
  | [], _ :: _ => true
  | _ :: _, [] => false
  | a :: as, b :: bs =>
    decide (a.toNat < b.toNat) || (decide (a = b) && charListLt as bs)

/-- `a ≤ b` in the code-point order on strings. -/
def pyStrLe (a b : String) : Bool := !(charListLt b.data a.data)

/-- Insert into an alphabetically sorted list of strings. -/
def insertSorted (s : String) : List String → List String
  | [] => [s]
  | t :: ts => if pyStrLe s t then s :: t :: ts else t :: insertSorted s ts

/-- Insertion sort by the code-point order on strings, matching Python's
`sorted` on a list of `str`. -/
def sortStrings : List String → List String
  | [] => []
  | s :: ss => insertSorted s (sortStrings ss)

/-- The strings of an all-string value list; `none` otherwise.  (Python's
`sorted` would also succeed on an all-numeric set and raise `TypeError`
on mixed types; type tags are strings in every dialect and claim, so
only all-string collections are modelled as succeeding.) -/
def asStrings : List JValue → Option (List String)
  | [] => some []
  | .jstr s :: rest => (asStrings rest).map (s :: ·)
  | _ :: _ => none

/-- `sorted(list(types))` over the collected tag set: de-duplicate and
sort alphabetically. -/
def sortedTypeTags (vals : List JValue) : Option (List JValue) :=
  (asStrings vals).map fun ss => (sortStrings ss.dedup).map JValue.jstr

/-- The whole `isinstance(..., dict)` branch shared by the FMX and FMXJ
resolvers: collect tags, de-duplicate, sort. -/
def objTypes (kvs : List (String × JValue)) : Option (List JValue) :=
  (collectTags kvs).bind sortedTypeTags

/-- `FmxTransformer.data_processing_types`: the raw
`DATA_PROCESSING_TYPE` property value (absent = `none`).  Falsy raw →
`[]`; strip; try `json.loads`: decode failure → one-element list of the
stripped literal; dict → collected sorted tags; string → that string;
ANY OTHER PARSED SHAPE falls through to the one-element list holding the
parsed value.  `none` models an uncaught exception inside the dict
branch. -/
def dataProcessingTypesFmx (raw : Option String) : Option (List JValue) :=
  match raw with
  | none => some []
  | some s =>
    if s = "" then some []
    else
      let t : String := ⟨pyStrip s.data⟩
      match jsonLoads t with
      | none => some [.jstr t]
      | some (.jobj kvs) => objTypes kvs
      | some (.jstr u) => some [.jstr u]
      | some v => some [v]

/-- `FmxjTransformer.data_processing_types`: the per-version
`dataProcessingType` value is already-parsed JSON.  Falsy → `[]`;
string → one-element list; dict → collected sorted tags; any other
shape → `[]`. -/
def dataProcessingTypesFmxj (v : Option JValue) : Option (List JValue) :=
  match v with
  | none => some []
  | some v =>
    if pyTruthy v then
      match v with
      | .jstr s => some [.jstr s]
      | .jobj kvs => objTypes kvs
      | _ => some []
    else some []

/-- `CustomTransformer.data_processing_types`, via
`parse_custom_transformer_header`: the raw trailing header field is
wrapped as a one-element list when non-empty, with NO JSON
interpretation. -/
def dataProcessingTypesCustom (raw : String) : List String :=
  if raw = "" then [] else [raw]

/-! ## `fme_packager/transformer.py`: custom-transformer headers -/

/-- The 16 field names of `NamedTransformerHeader`, in order. -/
def namedTransformerHeaderFields : List String :=
  ["name", "version", "category", "guid", "insert_mode", "blocked_looping",
   "process_count", "process_group_by", "process_groups_ordered", "build_num",
   "preserves_attrs", "deprecated", "pyver", "preserve_group_attr",
   "replaced_by", "data_processing_type"]

/-- A parsed custom-transformer header after the `_replace` coercions:
`version` and `build_num` are integers and `data_processing_type` is a
zero- or one-element list. -/
structure CustomHeader where
  name : String
  version : Int
  category : String
  guid : String
  insert_mode : String
  blocked_looping : String
  process_count : String
  process_group_by : String
  process_groups_ordered : String
  build_num : Int
  preserves_attrs : String
  deprecated : String
  pyver : String
  preserve_group_attr : String
  replaced_by : String
  data_processing_type : List String
deriving DecidableEq, Repr

/-- `parse_custom_transformer_header(line)`: remove the
`# TRANSFORMER_BEGIN` literal, strip, split NAIVELY on `,`, pad with
empty strings to 16 fields, take the first 16, then coerce `version`
and `build_num` with `int(...)` (`none` models the `ValueError` raised
when either is not numeric). -/
def parse_custom_transformer_header (line : String) : Option CustomHeader :=
  let fields0 :=
    (splitSep ',' (pyStrip (removeAll "# TRANSFORMER_BEGIN".data line.data))).map
      String.mk
  let n := namedTransformerHeaderFields.length
  let fields := (fields0 ++ List.replicate (n - fields0.length) "").take n
  let f := fun i => fields.getD i ""
  match pyIntOfString (f 1), pyIntOfString (f 9) with
  | some v, some b =>
    some
      { name := f 0, version := v, category := f 2, guid := f 3,
        insert_mode := f 4, blocked_looping := f 5, process_count := f 6,
        process_group_by := f 7, process_groups_ordered := f 8,
        build_num := b, preserves_attrs := f 10, deprecated := f 11,
        pyver := f 12, preserve_group_attr := f 13, replaced_by := f 14,
        data_processing_type := if f 15 = "" then [] else [f 15] }
  | _, _ => none

/-- `CustomTransformer.categories`: split the header's `category` field
naively on `,` and strip each piece; empty field → empty list. -/
def customCategories (h : CustomHeader) : List String :=
  if h.category = "" then []
  else (splitSep ',' h.category.data).map fun p => ⟨pyStrip p⟩

/-! ## `fme_packager/packager.py`: Python-compatibility predicate -/

/-- The release components of a dotted-numeric version string, as
`packaging.version.parse` reads them (`"35"` → `[35]`,
`"3.8.9"` → `[3, 8, 9]`).  `none` models the `InvalidVersion` exception
on anything that is not dotted-numeric (pre/post/dev-release suffixes
and epochs of PEP 440 are outside the vocabulary of compatibility
tokens and are not modelled). -/
def parseRelease (s : String) : Option (List Nat) :=
  let groups := splitSep '.' s.data
  if groups.all fun g => g ≠ [] && g.all Char.isDigit then
    some (groups.map digitsToNat)
  else none

/-- Pad a numeric tuple with trailing zeros up to length `n`. -/
def padZeros (l : List Nat) (n : Nat) : List Nat :=
  l ++ List.replicate (n - l.length) 0

/-- Lexicographic `≤` on equal-length numeric tuples. -/
def lexLeNat : List Nat → List Nat → Bool
  | [], _ => true
  | _ :: _, [] => false
  | x :: xs, y :: ys => decide (x < y) || (decide (x = y) && lexLeNat xs ys)

/-- PEP 440 release-tuple comparison: compare componentwise after
padding the shorter tuple with zeros. -/
def releaseLe (a b : List Nat) : Bool :=
  lexLeNat (padZeros a (max a.length b.length)) (padZeros b (max a.length b.length))

/-- `is_valid_python_compatibility(python_compat_version)`: the token
must start with `"3"` and, parsed as a version, be at least the
minimum requirement `"35"`.  A token that starts with `"3"` but does not
parse makes `version.parse` raise (`none`); any other token short
circuits to `false` without parsing. -/
def is_valid_python_compatibility (python_compat_version : String) : Option Bool :=
  let minimum_requirement := "35"
  if leadsWith "3".data python_compat_version.data then
    match parseRelease python_compat_version, parseRelease minimum_requirement with
    | some r, some rmin => some (releaseLe rmin r)
    | _, _ => none
  else some false

/-! ## `fme_packager/packager.py`: `validate_transformer`

The transformer file is represented by its parsed version list, newest
first, exactly what `list(transformer_file.versions())` yields.  The
metadata classes are not under `src/fme_packager` (only `src/fpkgr`
keeps an old copy); their accessors are plain dictionary reads, modelled
as structure fields. -/

/-- One parsed transformer version, as `validate_transformer` consumes
it.  `isCustom` is `isinstance(transformer, CustomTransformer)`;
`insert_mode` and `build_num` are only meaningful for custom
transformers. -/
structure TransformerVersion where
  isCustom : Bool
  name : String
  version : Int
  python_compatibility : String
  insert_mode : String
  build_num : Int
deriving DecidableEq, Repr

/-- A manifest transformer entry (`TransformerMetadata`): declared name
and version. -/
structure TransformerEntry where
  name : String
  version : Int
deriving DecidableEq, Repr

/-- The manifest fields consumed by the embedded functions
(`FMEPackageMetadata`). -/
structure PackageMetadata where
  publisher_uid : String
  uid : String
  minimum_fme_build : Int
  transformers : List TransformerEntry
  formats : List String
deriving DecidableEq, Repr

/-- The distinct errors `validate_transformer` can raise.
`nameMismatch` carries the expected and the actual fully-qualified name,
matching the message `"Name must be '{expected}', not '{actual}'"`;
the two compatibility errors are the distinct exception classes
`TransformerPythonCompatError` and `CustomTransformerPythonCompatError`,
each carrying the declared transformer name; `invalidVersionToken`
models the `packaging.version.InvalidVersion` exception escaping from
`is_valid_python_compatibility`. -/
inductive TransformerValidationError where
  | noVersions
  | invalidVersion (version : Int)
  | nameMismatch (expected actual : String)
  | insertModeNotLinked (actual : String)
  | buildBelowMinimum
  | missingVersion (version : Int)
  | pythonCompat (name : String)
  | customPythonCompat (name : String)
  | invalidVersionToken (token : String)
deriving DecidableEq, Repr

/-- The manifest-derived fully-qualified name
`"{publisher_uid}.{uid}.{name}"`. -/
def expectedFqname (meta : PackageMetadata) (entry : TransformerEntry) : String :=
  meta.publisher_uid ++ "." ++ meta.uid ++ "." ++ entry.name

/-- The per-version loop of `validate_transformer`: version number,
fully-qualified name, and (for custom transformers) insert mode and
build floor. -/
def checkVersions (meta : PackageMetadata) (fq : String) :
    List TransformerVersion → Except TransformerValidationError Unit
  | [] => .ok ()
  | t :: rest =>
    if t.version < 1 then .error (.invalidVersion t.version)
    else if t.name ≠ fq then .error (.nameMismatch fq t.name)
    else if t.isCustom && t.insert_mode ≠ "\"Linked Always\"" then
      .error (.insertModeNotLinked t.insert_mode)
    else if t.isCustom && t.build_num < meta.minimum_fme_build then
      .error .buildBelowMinimum
    else checkVersions meta fq rest

/-- `FMEPackager.validate_transformer`: fail on an empty version list,
run the per-version checks, then check the newest (first) version's
declared number and python-compatibility token, with the `"2or3"`
escape hatch for custom transformers only. -/
def validate_transformer (meta : PackageMetadata) (entry : TransformerEntry)
    (versions : List TransformerVersion) :
    Except TransformerValidationError Unit :=
  match versions with
  | [] => .error .noVersions
  | newest :: _ =>
    match checkVersions meta (expectedFqname meta entry) versions with
    | .error e => .error e
    | .ok () =>
      if newest.version ≠ entry.version then .error (.missingVersion entry.version)
      else
        match is_valid_python_compatibility newest.python_compatibility with
        | none => .error (.invalidVersionToken newest.python_compatibility)
        | some true => .ok ()
        | some false =>
          if !newest.isCustom then .error (.pythonCompat entry.name)
          else if newest.python_compatibility ≠ "2or3" then
            .error (.customPythonCompat entry.name)
          else .ok ()

/-! ## `fme_packager/help.py`: expected help index and validation -/

/-- Python `dict` assignment `d[k] = v` on an insertion-ordered
association list: overwrite in place if the key exists, else append. -/
def dictSet (d : List (String × String)) (k v : String) : List (String × String) :=
  if d.any fun p => p.1 = k then
    d.map fun p => if p.1 = k then (k, v) else p
  else d ++ [(k, v)]

/-- Python `dict.get(k, default)` on an association list built with
`dictSet` (keys are unique, so first match suffices). -/
def dictGetD (d : List (String × String)) (k dflt : String) : String :=
  match d.find? fun p => p.1 = k with
  | some p => p.2
  | none => dflt

/-- `get_expected_help_index(fpkg_metadata, format_directions)`: one
`fmx_{publisher}_{uid}_{name}` key per transformer, then the per-format
key families with per-direction expansion (`format_directions` defaults
to `{}`, read with default direction string `"rw"`). -/
def get_expected_help_index (meta : PackageMetadata)
    (format_directions : List (String × String)) : List (String × String) :=
  let fpkg_ident := meta.publisher_uid ++ "_" ++ meta.uid
  let index := meta.transformers.foldl
    (fun idx t =>
      dictSet idx ("fmx_" ++ fpkg_ident ++ "_" ++ t.name) ("/" ++ t.name ++ ".htm"))
    []
  meta.formats.foldl
    (fun idx fmtName =>
      let fmt_ident := pyLower (fpkg_ident ++ "_" ++ fmtName)
      let directions := dictGetD format_directions fmtName "rw"
      let idx := dictSet idx ("rw_" ++ fmt_ident ++ "_index") ("/" ++ fmtName ++ ".htm")
      let idx := dictSet idx ("rw_" ++ fmt_ident ++ "_feature_rep")
        ("/" ++ fmtName ++ "_feature_rep.htm")
      let idx := directions.data.foldl
        (fun idx d =>
          let ds : String := ⟨[d]⟩
          let idx := dictSet idx ("param_" ++ fmt_ident ++ "_" ++ ds)
            ("/" ++ fmtName ++ "_param_" ++ ds ++ ".htm")
          dictSet idx ("ft_" ++ fmt_ident ++ "_param_" ++ ds)
            ("/" ++ fmtName ++ "_ft_param_" ++ ds ++ ".htm"))
        idx
      dictSet idx ("ft_" ++ fmt_ident ++ "_user_attr")
        ("/" ++ fmtName ++ "_ft_user_attr.htm"))
    index

/-- `pathlib.PurePath.suffix` of a POSIX-style path string: the final
component's extension including the dot, empty when the last dot is
absent, leading, or trailing. -/
def pathSuffix (p : String) : String :=
  let base := (splitSep '/' p.data).getLastD []
  match (base.reverse.findIdx? fun c => c = '.') with
  | some j =>
    let i := base.length - 1 - j
    if 0 < i ∧ i < base.length - 1 then ⟨base.drop i⟩ else ""
  | none => ""

/-- The errors `HelpBuilder.validate_index` can raise. -/
inductive HelpIndexError where
  | pathNotAbsolute (path : String)
  | docNotFound (path : String)
  | badExtension (path : String)
  | unrecognizedKeys (keys : List String)
  | missingKeys (keys : List String)
deriving DecidableEq, Repr

/-- The per-row loop of `validate_index`: the second column must start
with `/`, resolve (after stripping leading slashes) to an existing file
under the doc root, and carry extension `htm`, `html` or `md`.
`existing` is the set of doc-root-relative paths that exist on disk,
passed explicitly in place of the filesystem. -/
def checkLinks (existing : List String) :
    List (String × String) → Except HelpIndexError Unit
  | [] => .ok ()
  | (_, doc_path) :: rest =>
    if !leadsWith "/".data doc_path.data then .error (.pathNotAbsolute doc_path)
    else
      let rel : String := ⟨pyLStrip '/' doc_path.data⟩
      if rel ∉ existing then .error (.docNotFound rel)
      else if pyLower ⟨(pathSuffix rel).data.drop 1⟩ ∉
          (["htm", "html", "md"] : List String) then
        .error (.badExtension rel)
      else checkLinks existing rest

/-- `HelpBuilder.validate_index` on the parsed rows of
`package_help.csv`: build the `links` dict (later rows overwrite), check
every link as a local path, then compare the key set against the
expected help index both ways.  Note the source reads NOTHING besides
the metadata and the CSV: in particular `minimum_fme_build` plays no
role, and there is no external-URL branch. -/
def validate_index (meta : PackageMetadata) (rows : List (String × String))
    (existing : List String) : Except HelpIndexError Unit :=
  let links := rows.foldl (fun d r => dictSet d r.1 r.2) []
  match checkLinks existing links with
  | .error e => .error e
  | .ok () =>
    let expectedKeys := (get_expected_help_index meta []).map (·.1)
    let present := links.map (·.1)
    let unrecognized := present.filter fun k => k ∉ expectedKeys
    if unrecognized ≠ [] then .error (.unrecognizedKeys unrecognized)
    else
      let missing := expectedKeys.filter fun k => k ∉ present
      if missing ≠ [] then .error (.missingKeys missing)
      else .ok ()

/-! ## Shared lemmas -/

theorem data_mk (l : List Char) : (String.mk l).data = l := rfl

theorem mk_data (s : String) : String.mk s.data = s := rfl

set_option maxRecDepth 4000 in
theorem numColumns_eq : numColumns = 18 := by decide

set_option maxRecDepth 4000 in
theorem numRequiredColumns_eq : numRequiredColumns = 17 := by decide

theorem splitSep_ne_nil (sep : Char) (l : List Char) : splitSep sep l ≠ [] := by
  cases l with
  | nil => simp [splitSep]
  | cons c cs =>
    simp only [splitSep]
    cases h : splitSep sep cs with
    | nil => simp
    | cons g gs => by_cases hc : c = sep <;> simp [hc]

theorem joinSep_splitSep (sep : Char) (l : List Char) :
    joinSep sep (splitSep sep l) = l := by
  induction l with
  | nil => rfl
  | cons c cs ih =>
    simp only [splitSep]
    cases hs : splitSep sep cs with
    | nil => exact absurd hs (splitSep_ne_nil sep cs)
    | cons g gs =>
      rw [hs] at ih
      by_cases hc : c = sep
      · subst hc
        simp only [if_pos rfl]
        cases gs with
        | nil => simpa [joinSep] using congrArg (c :: ·) ih
        | cons g2 rest => simpa [joinSep] using congrArg (c :: ·) ih
      · simp only [if_neg hc]
        cases gs with
        | nil => simpa [joinSep] using congrArg (c :: ·) ih
        | cons g2 rest =>
          simp only [joinSep] at ih ⊢
          rw [← ih]
          simp

theorem joinSep_append_single_nil (sep : Char) (gs : List (List Char)) (h : gs ≠ []) :
    joinSep sep (gs ++ [[]]) = joinSep sep gs ++ [sep] := by
  induction gs with
  | nil => exact absurd rfl h
  | cons g rest ih =>
    cases rest with
    | nil => simp [joinSep]
    | cons g2 rest2 =>
      have h2 := ih (by simp)
      have e2 : ∀ t : List (List Char),
          joinSep sep (g :: g2 :: t) = g ++ sep :: joinSep sep (g2 :: t) :=
        fun t => rfl
      have e3 : (g :: g2 :: rest2) ++ [[]] = g :: g2 :: (rest2 ++ [[]]) := by simp
      have e4 : (g2 :: rest2) ++ [[]] = g2 :: (rest2 ++ [[]]) := by simp
      rw [e3, e2 (rest2 ++ [[]]), ← e4, h2, e2 rest2]
      simp

theorem str_append_cancel_left {p a b : String} (h : p ++ a = p ++ b) : a = b := by
  apply String.ext
  have hd := congrArg String.data h
  simp only [String.data_append] at hd
  exact List.append_cancel_left hd

theorem exists_cons_of_len_succ {α : Type} (l : List α) {n : Nat}
    (h : l.length = n + 1) : ∃ a t, l = a :: t ∧ t.length = n := by
  cases l with
  | nil => simp at h
  | cons a t => exact ⟨a, t, rfl, by simpa using h⟩

/-! ## Claim C10 -/

theorem pyPartitionCh_sep_not_mem_head (sep : Char) (l : List Char) :
    sep ∉ (pyPartitionCh sep l).1 := by
  induction l with
  | nil => simp [pyPartitionCh]
  | cons c cs ih =>
    simp only [pyPartitionCh]
    by_cases hc : c = sep
    · simp [hc]
    · simp only [if_neg hc, List.mem_cons]
      rintro (h | h)
      · exact hc h.symm
      · exact ih h

theorem pyPartitionCh_of_not_mem (sep : Char) (l : List Char) (h : sep ∉ l) :
    pyPartitionCh sep l = (l, []) := by
  induction l with
  | nil => rfl
  | cons c cs ih =>
    simp only [List.mem_cons, not_or] at h
    have hc : ¬(c = sep) := fun hc => h.1 hc.symm
    simp [pyPartitionCh, if_neg hc, ih h.2]

/-- Claim C10: the round trip fails — in fact `split_fpkg_filename`
raises on EVERY input, because it partitions the filename at the FIRST
dot: for any name of the built form `A.B-C.fpkg` the computed extension
is `B-C.fpkg`, and when the extension does come out as `fpkg` the
remaining head contains no dot, so the publisher/package/version parts
come out empty.  This contradicts the function's own docstring, which
promises nonempty `publisher_uid, package_uid, version` for names of
the form `A.B-C.fpkg`. -/
theorem c10_split_build_always_raises :
    build_fpkg_filename "example" "my-package" "1.0.0" =
      .ok "example.my-package-1.0.0.fpkg" ∧
    split_fpkg_filename "example.my-package-1.0.0.fpkg" =
      .error (.wrongExtension "my-package-1.0.0.fpkg") ∧
    ∀ filename : String, ∃ e, split_fpkg_filename filename = .error e := by
  refine ⟨rfl, rfl, ?_⟩
  intro filename
  simp only [split_fpkg_filename]
  by_cases hext : (pyPartitionCh '.' filename.data).2 = "fpkg".data
  · have hmem : '.' ∉ (pyPartitionCh '.' filename.data).1 :=
      pyPartitionCh_sep_not_mem_head '.' filename.data
    rw [pyPartitionCh_of_not_mem '.' _ hmem]
    refine ⟨.unrecognizedName ⟨(pyPartitionCh '.' filename.data).1⟩, ?_⟩
    simp [hext, pyRPartitionCh]
  · exact ⟨.wrongExtension ⟨(pyPartitionCh '.' filename.data).2⟩, by simp [hext]⟩

/-! ## Claim C5 -/

set_option maxRecDepth 40000

/-- The multi-category header line from
`tests/test_transformer_parsing.py`, whose `category` cell is a
double-quoted, comma-containing, doubled-quote-escaped CSV cell. -/
def quotedCategoryHeaderLine : String :=
  "# TRANSFORMER_BEGIN customCategoriesTest,1,\"Attributes,\"\"Format Specific\"\"\",92a7f1bd-938a-49db-92c4-48fb37426eb3,\"Linked Always\",No,NO_PARALLELISM,,No,25741,YES,No,,No,,source"

/-- Claim C5: the decoder does NOT honor CSV quoting.  The naive comma
split cuts the quoted category cell in two (17 raw fields instead of
16), every later field shifts by one, the `build_num` position receives
the text `No`, and `int("No")` raises — so on the very line the
repository's own test asserts yields
`category == ["Attributes", "Format Specific"]`, the decoder raises
instead of producing any categories. -/
theorem c5_quoted_category_split_raises :
    (splitSep ',' (pyStrip (removeAll "# TRANSFORMER_BEGIN".data
        quotedCategoryHeaderLine.data))).map String.mk =
      ["customCategoriesTest", "1", "\"Attributes", "\"\"Format Specific\"\"\"",
       "92a7f1bd-938a-49db-92c4-48fb37426eb3", "\"Linked Always\"", "No",
       "NO_PARALLELISM", "", "No", "25741", "YES", "No", "", "No", "", "source"] ∧
    parse_custom_transformer_header quotedCategoryHeaderLine = none := by
  constructor
  · rfl
  · rfl

/-! ## Claim C8 -/

/-- The package metadata of the `validate_index` test fixture
(`tests/test_help.py`): publisher `example`, uid `package-hyphen`, one
transformer `Transformer`, and a `minimum_fme_build` at which the tests
expect external-URL rows to be accepted. -/
def helpTestMetadata : PackageMetadata where
  publisher_uid := "example"
  uid := "package-hyphen"
  minimum_fme_build := 25000
  transformers := [{ name := "Transformer", version := 1 }]
  formats := []

/-- Claim C8: `validate_index` has NO external-URL branch: a row whose
second column is `http://example.com` is rejected with
`Path must start with /` no matter the package's `minimum_fme_build`
(the function never reads it), although the repository's own tests
expect, citing `MIN_BUILD_WITH_URL_SUPPORT` from this module, that such
a row validates at or above that build. -/
theorem c8_url_row_always_rejected :
    validate_index helpTestMetadata
      [("fmx_example_package-hyphen_Transformer", "http://example.com")]
      ["Transformers/Transformer-pkg.htm"] =
      .error (.pathNotAbsolute "http://example.com") ∧
    validate_index helpTestMetadata
      [("fmx_example_package-hyphen_Transformer",
        "/Transformers/Transformer-pkg.htm")]
      ["Transformers/Transformer-pkg.htm"] = .ok () := by
  exact ⟨rfl, rfl⟩

/-! ## Claim C6 -/

theorem parse_formatinfo_eq (line : String) :
    parse_formatinfo line =
      if (splitSep '|' (pyStrip line.data)).length = 17 ∨
          (splitSep '|' (pyStrip line.data)).length = 18 then
        .ok (FormatInfo.ofParts ((splitSep '|' (pyStrip line.data)).map String.mk))
      else .error ((splitSep '|' (pyStrip line.data)).length, 17) := by
  by_cases h17 : (splitSep '|' (pyStrip line.data)).length = 17 <;>
    by_cases h18 : (splitSep '|' (pyStrip line.data)).length = 18 <;>
      simp [parse_formatinfo, List.length_map, numColumns_eq, numRequiredColumns_eq,
        h17, h18]

/-- Claim C6: `parse_formatinfo` succeeds exactly on lines whose
stripped `|`-split field count is 17 (required fields only) or 18
(optional categories present); any other count raises an error carrying
the actual count and the required minimum 17. -/
theorem c6_parse_formatinfo_field_count (line : String) :
    ((∃ fi, parse_formatinfo line = .ok fi) ↔
      (splitSep '|' (pyStrip line.data)).length = 17 ∨
        (splitSep '|' (pyStrip line.data)).length = 18) ∧
    ((splitSep '|' (pyStrip line.data)).length ≠ 17 →
      (splitSep '|' (pyStrip line.data)).length ≠ 18 →
      parse_formatinfo line =
        .error ((splitSep '|' (pyStrip line.data)).length, 17)) := by
  constructor
  · constructor
    · rintro ⟨fi, hfi⟩
      by_contra hcon
      push_neg at hcon
      rw [parse_formatinfo_eq, if_neg (by tauto)] at hfi
      exact Except.noConfusion hfi
    · intro h
      exact ⟨_, by rw [parse_formatinfo_eq, if_pos h]⟩
  · intro h17 h18
    rw [parse_formatinfo_eq, if_neg (by tauto)]

/-- Claim C6 witness: a 16-field line (one short of the required 17)
raises the decode error reporting 16 against the expected 17. -/
theorem c6_parse_formatinfo_field_count_witness :
    parse_formatinfo "A|B|C|D|E|F|G|H|I|J|K|L|M|N|O|P" = .error (16, 17) := by
  have h := (c6_parse_formatinfo_field_count "A|B|C|D|E|F|G|H|I|J|K|L|M|N|O|P").2
    (by decide) (by decide)
  have hn : (splitSep '|'
      (pyStrip ("A|B|C|D|E|F|G|H|I|J|K|L|M|N|O|P" : String).data)).length = 16 := by
    decide
  rw [hn] at h
  exact h

/-! ## Claim C9 -/

theorem ofParts_fields_of_len17 (l : List String) (h : l.length = 17) :
    (FormatInfo.ofParts l).requiredFields = l ∧
    (FormatInfo.ofParts l).allFields = l ++ [""] := by
  obtain ⟨x0, l0, rfl, h0⟩ := exists_cons_of_len_succ l h
  obtain ⟨x1, l1, rfl, h1⟩ := exists_cons_of_len_succ l0 h0
  obtain ⟨x2, l2, rfl, h2⟩ := exists_cons_of_len_succ l1 h1
  obtain ⟨x3, l3, rfl, h3⟩ := exists_cons_of_len_succ l2 h2
  obtain ⟨x4, l4, rfl, h4⟩ := exists_cons_of_len_succ l3 h3
  obtain ⟨x5, l5, rfl, h5⟩ := exists_cons_of_len_succ l4 h4
  obtain ⟨x6, l6, rfl, h6⟩ := exists_cons_of_len_succ l5 h5
  obtain ⟨x7, l7, rfl, h7⟩ := exists_cons_of_len_succ l6 h6
  obtain ⟨x8, l8, rfl, h8⟩ := exists_cons_of_len_succ l7 h7
  obtain ⟨x9, l9, rfl, h9⟩ := exists_cons_of_len_succ l8 h8
  obtain ⟨x10, l10, rfl, h10⟩ := exists_cons_of_len_succ l9 h9
  obtain ⟨x11, l11, rfl, h11⟩ := exists_cons_of_len_succ l10 h10
  obtain ⟨x12, l12, rfl, h12⟩ := exists_cons_of_len_succ l11 h11
  obtain ⟨x13, l13, rfl, h13⟩ := exists_cons_of_len_succ l12 h12
  obtain ⟨x14, l14, rfl, h14⟩ := exists_cons_of_len_succ l13 h13
  obtain ⟨x15, l15, rfl, h15⟩ := exists_cons_of_len_succ l14 h14
  obtain ⟨x16, l16, rfl, h16⟩ := exists_cons_of_len_succ l15 h15
  have hnil : l16 = [] := List.length_eq_zero.mp h16
  subst hnil
  exact ⟨rfl, rfl⟩

/-- Claim C9 (amended): for a line with exactly the 17 required fields
and no surrounding whitespace, decoding succeeds, and re-encoding by
joining the 17 REQUIRED field values with `|` reproduces the input
byte-for-byte — but joining ALL 18 record fields (the defaulted empty
optional `FORMAT_CATEGORIES` included) appends a trailing `|`. -/
theorem c9_required_join_roundtrip (line : String)
    (hstrip : pyStrip line.data = line.data)
    (hlen : (splitSep '|' line.data).length = 17) :
    parse_formatinfo line =
      .ok (FormatInfo.ofParts ((splitSep '|' line.data).map String.mk)) ∧
    joinFieldsPipe
      (FormatInfo.ofParts ((splitSep '|' line.data).map String.mk)).requiredFields =
      line ∧
    joinFieldsPipe
      (FormatInfo.ofParts ((splitSep '|' line.data).map String.mk)).allFields =
      line ++ "|" := by
  have hmap : ((splitSep '|' line.data).map String.mk).length = 17 := by
    simpa using hlen
  obtain ⟨hreq, hall⟩ := ofParts_fields_of_len17 _ hmap
  have hdatamap : (String.data ∘ String.mk) = fun l : List Char => l :=
    funext fun _ => rfl
  refine ⟨?_, ?_, ?_⟩
  · rw [parse_formatinfo_eq, hstrip, if_pos (Or.inl hlen)]
  · rw [hreq]
    show (⟨joinSep '|'
      (((splitSep '|' line.data).map String.mk).map String.data)⟩ : String) = line
    rw [List.map_map, hdatamap, List.map_id', joinSep_splitSep]
  · rw [hall]
    show (⟨joinSep '|'
      ((((splitSep '|' line.data).map String.mk) ++ [""]).map String.data)⟩ :
        String) = line ++ "|"
    rw [List.map_append, List.map_map, hdatamap, List.map_id']
    have hmapnil : (["" ] : List String).map String.data = [[]] := rfl
    rw [hmapnil,
      joinSep_append_single_nil '|' _ (splitSep_ne_nil '|' line.data),
      joinSep_splitSep]
    apply String.ext
    simp [String.data_append]

/-- The 17-field pipe record used as the concrete C9 input. -/
def pipe17Line : String := "A|B|C|D|E|F|G|H|I|J|K|L|M|N|O|P|Q"

/-- The record `parse_formatinfo` produces for `pipe17Line`. -/
def pipe17Record : FormatInfo where
  FORMAT_NAME := "A"
  FORMAT_LONG_NAME := "B"
  DATASET_TYPE := "C"
  DIRECTION := "D"
  AUTOMATED_TRANSLATION_FLAG := "E"
  COORDSYS_AWARE := "F"
  FILTER := "G"
  FORMAT_TYPE := "H"
  USE_NATIVE_SPATIAL_INDEX := "I"
  SOURCE_SETTINGS := "J"
  DESTINATION_SETTINGS := "K"
  VISIBLE := "L"
  MIN_VERSION := "M"
  MAX_VERSION := "N"
  FORMAT_FAMILY := "O"
  HAS_SIDECARS := "P"
  MARKETING_FAMILY := "Q"
  FORMAT_CATEGORIES := ""

/-- Claim C9 counterexample: on a 17-field line the decoded record's 18
fields joined with `|` give the input PLUS a trailing `|`, so the
claimed byte-for-byte round trip over the record's fields fails. -/
theorem c9_counterexample_trailing_bar :
    parse_formatinfo pipe17Line = .ok pipe17Record ∧
    joinFieldsPipe pipe17Record.allFields = pipe17Line ++ "|" ∧
    joinFieldsPipe pipe17Record.allFields ≠ pipe17Line := by
  exact ⟨rfl, rfl, by decide⟩

/-- Claim C9 witness: the amended round trip at the concrete 17-field
line `pipe17Line`. -/
theorem c9_required_join_roundtrip_witness :
    parse_formatinfo pipe17Line =
      .ok (FormatInfo.ofParts ((splitSep '|' pipe17Line.data).map String.mk)) ∧
    joinFieldsPipe
      (FormatInfo.ofParts
        ((splitSep '|' pipe17Line.data).map String.mk)).requiredFields =
      pipe17Line ∧
    joinFieldsPipe
      (FormatInfo.ofParts
        ((splitSep '|' pipe17Line.data).map String.mk)).allFields =
      pipe17Line ++ "|" :=
  c9_required_join_roundtrip pipe17Line (by decide) (by decide)

/-! ## Claim C7 -/

theorem dictSet_fresh (d : List (String × String)) (k v : String)
    (h : ∀ p ∈ d, p.1 ≠ k) : dictSet d k v = d ++ [(k, v)] := by
  have hc : ¬ (d.any fun p => p.1 = k) = true := by
    simp only [List.any_eq_true, decide_eq_true_eq, not_exists]
    intro p
    rintro ⟨hp, he⟩
    exact h p hp he
  rw [dictSet, if_neg hc]

theorem foldl_dictSet_append (key val : TransformerEntry → String) :
    ∀ (ts : List TransformerEntry) (acc : List (String × String)),
      (ts.map key).Nodup →
      (∀ t ∈ ts, ∀ p ∈ acc, p.1 ≠ key t) →
      ts.foldl (fun idx t => dictSet idx (key t) (val t)) acc =
        acc ++ ts.map fun t => (key t, val t) := by
  intro ts
  induction ts with
  | nil => intro acc _ _; simp
  | cons t ts ih =>
    intro acc hnd hfresh
    simp only [List.map_cons, List.nodup_cons] at hnd
    simp only [List.foldl_cons]
    rw [dictSet_fresh acc (key t) (val t) (fun p hp => hfresh t (by simp) p hp)]
    rw [ih (acc ++ [(key t, val t)]) hnd.2 ?_]
    · simp
    · intro u hu p hp
      rcases List.mem_append.mp hp with hpa | hpb
      · exact hfresh u (by simp [hu]) p hpa
      · have hpe : p = (key t, val t) := by simpa using hpb
        subst hpe
        intro hke
        have hke' : key t = key u := hke
        exact hnd.1 (by rw [hke']; exact List.mem_map_of_mem key hu)

/-- Claim C7: `get_expected_help_index` maps each manifest transformer to
exactly one key `fmx_{publisher}_{uid}_{name}` valued `/{name}.htm`; with
publisher `ex`, uid `pkg`, one transformer `Greeter` and no formats the
whole index is exactly that one pair, and in general (distinct names, no
formats) the index is the transformer list mapped to those pairs. -/
theorem c7_expected_help_index :
    get_expected_help_index
      { publisher_uid := "ex", uid := "pkg", minimum_fme_build := 0,
        transformers := [{ name := "Greeter", version := 1 }], formats := [] } [] =
      [("fmx_ex_pkg_Greeter", "/Greeter.htm")] ∧
    ∀ (meta : PackageMetadata) (fds : List (String × String)),
      meta.formats = [] →
      (meta.transformers.map (·.name)).Nodup →
      get_expected_help_index meta fds =
        meta.transformers.map fun t =>
          ("fmx_" ++ (meta.publisher_uid ++ "_" ++ meta.uid) ++ "_" ++ t.name,
            "/" ++ t.name ++ ".htm") := by
  constructor
  · rfl
  · intro meta fds hfmt hnd
    simp only [get_expected_help_index, hfmt, List.foldl_nil]
    apply foldl_dictSet_append
      (fun t => "fmx_" ++ (meta.publisher_uid ++ "_" ++ meta.uid) ++ "_" ++ t.name)
      (fun t => "/" ++ t.name ++ ".htm") meta.transformers []
    · have hinj : Function.Injective
          (fun n : String => "fmx_" ++ (meta.publisher_uid ++ "_" ++ meta.uid) ++ "_" ++ n) := by
        intro a b hab
        simp only at hab
        exact str_append_cancel_left hab
      have hmm : meta.transformers.map
          (fun t => "fmx_" ++ (meta.publisher_uid ++ "_" ++ meta.uid) ++ "_" ++ t.name) =
          (meta.transformers.map (·.name)).map
            (fun n => "fmx_" ++ (meta.publisher_uid ++ "_" ++ meta.uid) ++ "_" ++ n) := by
        rw [List.map_map]
        rfl
      rw [hmm]
      exact hnd.map hinj
    · intro t _ p hp
      simp at hp

/-- Claim C7 witness: the general index shape applied to a two-transformer
manifest with no formats. -/
theorem c7_expected_help_index_witness :
    get_expected_help_index
      { publisher_uid := "ex", uid := "pkg", minimum_fme_build := 0,
        transformers := [{ name := "Alpha", version := 1 },
                         { name := "Beta", version := 2 }], formats := [] } [] =
      [("fmx_ex_pkg_Alpha", "/Alpha.htm"), ("fmx_ex_pkg_Beta", "/Beta.htm")] := by
  have h := c7_expected_help_index.2
    { publisher_uid := "ex", uid := "pkg", minimum_fme_build := 0,
      transformers := [{ name := "Alpha", version := 1 },
                       { name := "Beta", version := 2 }], formats := [] }
    [] rfl (by decide)
  rw [h]
  rfl

/-! ## Claim C2 -/

/-- Claim C2 counterexample: the raw value `[]` parses as JSON to an
array — neither object nor string — yet the legacy FMX resolver returns
the one-element list holding the parsed value, not the empty list the
claim demands for "any other parsed JSON shape". -/
theorem c2_counterexample_other_shape :
    jsonLoads "[]" = some (JValue.jarr []) ∧
    dataProcessingTypesFmx (some "[]") = some [JValue.jarr []] ∧
    dataProcessingTypesFmx (some "[]") ≠ some [] := by
  refine ⟨rfl, rfl, ?_⟩
  intro h
  rw [show dataProcessingTypesFmx (some "[]") = some [JValue.jarr []] from rfl] at h
  simp at h

/-- Claim C2 (amended): resolution of a raw `data_processing_type`
value.  Absent or empty raw values give `[]` in both JSON-aware
dialects; a raw value that fails to parse as JSON gives the one-element
list of the stripped literal; a JSON string gives its one-element list
(in the JSON dialect only when truthy); a JSON object gives the
alphabetically sorted de-duplicated truthy `then`/`default` tags; and
for ANY OTHER parsed shape the legacy FMX dialect returns the
one-element list holding the parsed value while the JSON dialect
returns the empty list. -/
theorem c2_data_processing_type_resolution :
    dataProcessingTypesFmx none = some [] ∧
    dataProcessingTypesFmx (some "") = some [] ∧
    dataProcessingTypesFmxj none = some [] ∧
    (∀ v : JValue, pyTruthy v = false →
      dataProcessingTypesFmxj (some v) = some []) ∧
    (∀ s : String, s ≠ "" → jsonLoads ⟨pyStrip s.data⟩ = none →
      dataProcessingTypesFmx (some s) = some [JValue.jstr ⟨pyStrip s.data⟩]) ∧
    (∀ (s : String) (u : String), s ≠ "" →
      jsonLoads ⟨pyStrip s.data⟩ = some (JValue.jstr u) →
      dataProcessingTypesFmx (some s) = some [JValue.jstr u]) ∧
    (∀ u : String, u ≠ "" →
      dataProcessingTypesFmxj (some (JValue.jstr u)) = some [JValue.jstr u]) ∧
    (∀ (s : String) (kvs : List (String × JValue)), s ≠ "" →
      jsonLoads ⟨pyStrip s.data⟩ = some (JValue.jobj kvs) →
      dataProcessingTypesFmx (some s) = objTypes kvs) ∧
    (∀ kvs : List (String × JValue), kvs ≠ [] →
      dataProcessingTypesFmxj (some (JValue.jobj kvs)) = objTypes kvs) ∧
    (∀ (kvs : List (String × JValue)) (vals : List JValue) (strs : List String),
      collectTags kvs = some vals → asStrings vals = some strs →
      objTypes kvs = some ((sortStrings strs.dedup).map JValue.jstr)) ∧
    dataProcessingTypesFmx
      (some "\x7b\"if\":[\x7b\"then\":\"source\"\x7d],\"default\":\"destination\"\x7d") =
      some [JValue.jstr "destination", JValue.jstr "source"] ∧
    dataProcessingTypesFmx (some "source") = some [JValue.jstr "source"] ∧
    (∀ (s : String) (v : JValue), s ≠ "" →
      jsonLoads ⟨pyStrip s.data⟩ = some v →
      (∀ u, v ≠ JValue.jstr u) → (∀ kvs, v ≠ JValue.jobj kvs) →
      dataProcessingTypesFmx (some s) = some [v]) ∧
    (∀ v : JValue, pyTruthy v = true →
      (∀ u, v ≠ JValue.jstr u) → (∀ kvs, v ≠ JValue.jobj kvs) →
      dataProcessingTypesFmxj (some v) = some []) := by
  refine ⟨rfl, rfl, rfl, ?_, ?_, ?_, ?_, ?_, ?_, ?_, rfl, rfl, ?_, ?_⟩
  · intro v hv
    simp only [dataProcessingTypesFmxj, hv]
    rfl
  · intro s hs hl
    simp only [dataProcessingTypesFmx, if_neg hs]
    rw [hl]
  · intro s u hs hl
    simp only [dataProcessingTypesFmx, if_neg hs]
    rw [hl]
  · intro u hu
    have ht : pyTruthy (JValue.jstr u) = true := by
      simp [pyTruthy, hu]
    simp only [dataProcessingTypesFmxj, ht]
    rfl
  · intro s kvs hs hl
    simp only [dataProcessingTypesFmx, if_neg hs]
    rw [hl]
  · intro kvs hkvs
    cases kvs with
    | nil => exact absurd rfl hkvs
    | cons kv rest =>
      simp only [dataProcessingTypesFmxj, pyTruthy]
      rfl
  · intro kvs vals strs hct has
    rw [objTypes, hct]
    show sortedTypeTags vals = _
    rw [sortedTypeTags, has]
    rfl
  · intro s v hs hl hnstr hnobj
    simp only [dataProcessingTypesFmx, if_neg hs]
    rw [hl]
    cases v with
    | jnull => rfl
    | jbool b => rfl
    | jnum q => rfl
    | jstr u => exact absurd rfl (hnstr u)
    | jarr xs => rfl
    | jobj kvs => exact absurd rfl (hnobj kvs)
  · intro v hv hnstr hnobj
    cases v with
    | jnull => simp [pyTruthy] at hv
    | jbool b => simp only [dataProcessingTypesFmxj, hv]; rfl
    | jnum q => simp only [dataProcessingTypesFmxj, hv]; rfl
    | jstr u => exact absurd rfl (hnstr u)
    | jarr xs => simp only [dataProcessingTypesFmxj, hv]; rfl
    | jobj kvs => exact absurd rfl (hnobj kvs)

/-- Claim C2 witness: the amended other-shape rule applied to the raw
value `[]` (a parsed array). -/
theorem c2_data_processing_type_resolution_witness :
    dataProcessingTypesFmx (some "[]") = some [JValue.jarr []] := by
  have h := c2_data_processing_type_resolution
  exact h.2.2.2.2.2.2.2.2.2.2.2.2.1 "[]" (JValue.jarr [])
    (by decide) rfl (fun u => by simp) (fun kvs => by simp)

/-! ## Claim C3 -/

/-- Claim C3 counterexample: on the raw value `"source"` (a quoted JSON
string) the compiled/custom dialect wraps the raw text verbatim while
the legacy FMX dialect parses it as JSON and unwraps the quotes — the
two dialects resolve the same raw value to different lists. -/
theorem c3_counterexample_custom_vs_fmx :
    (dataProcessingTypesCustom "\"source\"").map JValue.jstr =
      [JValue.jstr "\"source\""] ∧
    dataProcessingTypesFmx (some "\"source\"") = some [JValue.jstr "source"] ∧
    some ((dataProcessingTypesCustom "\"source\"").map JValue.jstr) ≠
      dataProcessingTypesFmx (some "\"source\"") := by
  refine ⟨rfl, rfl, ?_⟩
  intro h
  rw [show (dataProcessingTypesCustom "\"source\"").map JValue.jstr =
        [JValue.jstr "\"source\""] from rfl,
      show dataProcessingTypesFmx (some "\"source\"") =
        some [JValue.jstr "source"] from rfl] at h
  simp only [Option.some.injEq, List.cons.injEq, JValue.jstr.injEq] at h
  exact absurd h.1 (by decide)

/-- Claim C3 (amended): the legacy FMX and JSON dialects share the
resolution algorithm on values that parse to a JSON object (any object,
the empty one included) and on values that parse to a non-empty JSON
string; the custom dialect applies no JSON interpretation at all — it
returns `[]` for an empty raw value and the singleton raw literal
otherwise — and therefore agrees with the legacy FMX dialect exactly on
raw values that do NOT parse as JSON (plain tags like `source`). -/
theorem c3_dialect_agreement :
    (∀ s : String, s ≠ "" → pyStrip s.data = s.data → jsonLoads s = none →
      dataProcessingTypesFmx (some s) =
        some ((dataProcessingTypesCustom s).map JValue.jstr)) ∧
    (∀ (s : String) (kvs : List (String × JValue)), s ≠ "" →
      jsonLoads ⟨pyStrip s.data⟩ = some (JValue.jobj kvs) →
      dataProcessingTypesFmx (some s) =
        dataProcessingTypesFmxj (some (JValue.jobj kvs))) ∧
    (∀ (s : String) (u : String), s ≠ "" → u ≠ "" →
      jsonLoads ⟨pyStrip s.data⟩ = some (JValue.jstr u) →
      dataProcessingTypesFmx (some s) =
        dataProcessingTypesFmxj (some (JValue.jstr u))) ∧
    (∀ s : String, dataProcessingTypesCustom s =
      if s = "" then [] else [s]) := by
  refine ⟨?_, ?_, ?_, fun s => rfl⟩
  · intro s hs hstrip hl
    have hl' : jsonLoads ⟨pyStrip s.data⟩ = none := by
      rw [hstrip]
      exact hl
    simp only [dataProcessingTypesFmx, if_neg hs]
    rw [hl']
    simp only [dataProcessingTypesCustom, if_neg hs, List.map_cons, List.map_nil]
    rw [hstrip]
  · intro s kvs hs hl
    simp only [dataProcessingTypesFmx, if_neg hs]
    rw [hl]
    cases kvs with
    | nil => rfl
    | cons kv rest =>
      simp only [dataProcessingTypesFmxj, pyTruthy]
      rfl
  · intro s u hs hu hl
    simp only [dataProcessingTypesFmx, if_neg hs]
    rw [hl]
    have ht : pyTruthy (JValue.jstr u) = true := by simp [pyTruthy, hu]
    simp only [dataProcessingTypesFmxj, ht]
    rfl

/-- Claim C3 witness: all three dialects agree on the plain literal
`source`, which does not parse as JSON. -/
theorem c3_dialect_agreement_witness :
    dataProcessingTypesFmx (some "source") =
      some ((dataProcessingTypesCustom "source").map JValue.jstr) :=
  c3_dialect_agreement.1 "source" (by decide) rfl rfl

/-! ## Claim C4 -/

/-- The metadata of the validation scenarios: publisher `example`, uid
`my-package`, minimum build 19000. -/
def scenarioMeta : PackageMetadata where
  publisher_uid := "example"
  uid := "my-package"
  minimum_fme_build := 19000
  transformers := []
  formats := []

/-- Manifest entry for the scripted-dialect scenario transformer. -/
def greeterEntry : TransformerEntry := { name := "MyGreeter", version := 1 }

/-- A scripted (non-custom) transformer version asserting
`PYTHON_COMPATIBILITY: 27`. -/
def greeterLegacy27 : TransformerVersion where
  isCustom := false
  name := "example.my-package.MyGreeter"
  version := 1
  python_compatibility := "27"
  insert_mode := ""
  build_num := 0

/-- Manifest entry for the compiled-dialect scenario transformer. -/
def epochEntry : TransformerEntry := { name := "epochToTimestamp29", version := 1 }

/-- A custom (compiled) transformer version with the given
python-compatibility token and otherwise valid fields. -/
def epochCustom (compat : String) : TransformerVersion where
  isCustom := true
  name := "example.my-package.epochToTimestamp29"
  version := 1
  python_compatibility := compat
  insert_mode := "\"Linked Always\""
  build_num := 19238

/-- Claim C4: a token passes the compatibility predicate iff it starts
with `3` and, parsed as a dotted-numeric release, is at least the floor
`35`; on the newest version, a failing token (`27`) raises the
scripted-dialect error for a non-custom transformer and the distinct
compiled-dialect error for a custom one, while the custom-only literal
`2or3` is accepted. -/
theorem c4_python_compatibility_predicate :
    (∀ s : String, is_valid_python_compatibility s = some true ↔
      (leadsWith "3".data s.data = true ∧
        ∃ r, parseRelease s = some r ∧ releaseLe [35] r = true)) ∧
    parseRelease "35" = some [35] ∧
    is_valid_python_compatibility "27" = some false ∧
    is_valid_python_compatibility "2or3" = some false ∧
    validate_transformer scenarioMeta greeterEntry [greeterLegacy27] =
      .error (.pythonCompat "MyGreeter") ∧
    validate_transformer scenarioMeta epochEntry [epochCustom "27"] =
      .error (.customPythonCompat "epochToTimestamp29") ∧
    validate_transformer scenarioMeta epochEntry [epochCustom "2or3"] = .ok () := by
  refine ⟨?_, rfl, rfl, rfl, rfl, rfl, rfl⟩
  intro s
  by_cases hld : leadsWith "3".data s.data = true
  · simp only [is_valid_python_compatibility, if_pos hld]
    cases hr : parseRelease s with
    | none =>
      constructor
      · intro h
        simp at h
      · rintro ⟨-, r, hr2, -⟩
        exact Option.noConfusion hr2
    | some r =>
      show some (releaseLe [35] r) = some true ↔ _
      constructor
      · intro h
        exact ⟨hld, r, rfl, Option.some.inj h⟩
      · rintro ⟨-, r', hr', hle⟩
        rw [Option.some.inj hr', hle]
  · simp only [is_valid_python_compatibility, if_neg hld]
    constructor
    · intro h
      exact Bool.noConfusion (Option.some.inj h)
    · rintro ⟨h3, -⟩
      exact absurd h3 hld

/-- Claim C4 witness: the predicate characterization applied to the
passing token `37`. -/
theorem c4_python_compatibility_predicate_witness :
    is_valid_python_compatibility "37" = some true :=
  (c4_python_compatibility_predicate.1 "37").mpr
    ⟨by decide, [37], rfl, by decide⟩

/-! ## Claim C1 -/

theorem checkVersions_ok_iff (meta : PackageMetadata) (fq : String)
    (l : List TransformerVersion) :
    checkVersions meta fq l = .ok () ↔
      ∀ t ∈ l, 1 ≤ t.version ∧ t.name = fq ∧
        (t.isCustom = true → t.insert_mode = "\"Linked Always\"" ∧
          meta.minimum_fme_build ≤ t.build_num) := by
  induction l with
  | nil => simp [checkVersions]
  | cons t rest ih =>
    simp only [checkVersions, List.forall_mem_cons]
    by_cases h1 : t.version < 1
    · rw [if_pos h1]
      constructor
      · intro h
        exact Except.noConfusion h
      · intro h
        have := h.1.1
        omega
    · rw [if_neg h1]
      by_cases h2 : t.name ≠ fq
      · rw [if_pos h2]
        constructor
        · intro h
          exact Except.noConfusion h
        · intro h
          exact absurd h.1.2.1 h2
      · rw [if_neg h2]
        push_neg at h2
        by_cases h3 : (t.isCustom && decide (t.insert_mode ≠ "\"Linked Always\"")) = true
        · rw [if_pos h3]
          simp only [Bool.and_eq_true, decide_eq_true_eq] at h3
          constructor
          · intro h
            exact Except.noConfusion h
          · intro h
            exact absurd (h.1.2.2 h3.1).1 h3.2
        · rw [if_neg h3]
          simp only [Bool.and_eq_true, decide_eq_true_eq] at h3
          by_cases h4 : (t.isCustom && decide (t.build_num < meta.minimum_fme_build)) = true
          · rw [if_pos h4]
            simp only [Bool.and_eq_true, decide_eq_true_eq] at h4
            constructor
            · intro h
              exact Except.noConfusion h
            · intro h
              have := (h.1.2.2 h4.1).2
              omega
          · rw [if_neg h4]
            simp only [Bool.and_eq_true, decide_eq_true_eq] at h4
            rw [ih]
            constructor
            · intro hrest
              refine ⟨⟨by omega, h2, fun hc => ⟨?_, ?_⟩⟩, hrest⟩
              · by_contra hne
                exact h3 ⟨hc, hne⟩
              · by_contra hne
                exact h4 ⟨hc, by omega⟩
            · intro h
              exact h.2

/-- Acceptance of the newest version's python-compatibility token:
either the predicate holds, or it is definitely false and the custom
`"2or3"` escape hatch applies. -/
def compatAccepted (t : TransformerVersion) : Prop :=
  is_valid_python_compatibility t.python_compatibility = some true ∨
    (is_valid_python_compatibility t.python_compatibility = some false ∧
      t.isCustom = true ∧ t.python_compatibility = "2or3")

/-- Claim C1: `validate_transformer` returns normally exactly when the
version list is non-empty, every version has number at least 1, the
manifest-derived fully-qualified name, and (for custom versions) the
literal `"Linked Always"` insert mode and a build at or above the
manifest floor, and the newest (first) version carries the declared
version number and an acceptable python-compatibility token; moreover a
name mismatch raises the error carrying both the expected and the
actual name. -/
theorem c1_validate_transformer_ok_iff (meta : PackageMetadata)
    (entry : TransformerEntry) (versions : List TransformerVersion) :
    (validate_transformer meta entry versions = .ok () ↔
      ∃ newest rest, versions = newest :: rest ∧
        (∀ t ∈ versions, 1 ≤ t.version ∧ t.name = expectedFqname meta entry ∧
          (t.isCustom = true → t.insert_mode = "\"Linked Always\"" ∧
            meta.minimum_fme_build ≤ t.build_num)) ∧
        newest.version = entry.version ∧ compatAccepted newest) ∧
    (∀ (t : TransformerVersion) (rest : List TransformerVersion),
      ¬ t.version < 1 → t.name ≠ expectedFqname meta entry →
      checkVersions meta (expectedFqname meta entry) (t :: rest) =
        .error (.nameMismatch (expectedFqname meta entry) t.name)) := by
  constructor
  · cases versions with
    | nil =>
      constructor
      · intro h
        exact Except.noConfusion h
      · rintro ⟨newest, rest, heq, -⟩
        exact List.noConfusion heq
    | cons newest rest =>
      have hinj : ∀ (n' : TransformerVersion) (r' : List TransformerVersion),
          newest :: rest = n' :: r' → n' = newest ∧ r' = rest := by
        intro n' r' heq
        injection heq with e1 e2
        exact ⟨e1.symm, e2.symm⟩
      cases hcv : checkVersions meta (expectedFqname meta entry) (newest :: rest) with
      | error e =>
        have hval : validate_transformer meta entry (newest :: rest) = .error e := by
          simp only [validate_transformer, hcv]
        rw [hval]
        constructor
        · intro h
          exact Except.noConfusion h
        · rintro ⟨n', r', heq, hall, -, -⟩
          obtain ⟨rfl, rfl⟩ := hinj n' r' heq
          rw [(checkVersions_ok_iff meta _ _).mpr hall] at hcv
          exact Except.noConfusion hcv
      | ok u =>
        cases u
        by_cases hv : newest.version ≠ entry.version
        · have hval : validate_transformer meta entry (newest :: rest) =
              .error (.missingVersion entry.version) := by
            simp only [validate_transformer, hcv, hv, ne_eq, not_false_eq_true,
              if_true]
          rw [hval]
          constructor
          · intro h
            exact Except.noConfusion h
          · rintro ⟨n', r', heq, -, hver, -⟩
            obtain ⟨rfl, rfl⟩ := hinj n' r' heq
            exact absurd hver hv
        · push_neg at hv
          cases hc : is_valid_python_compatibility newest.python_compatibility with
          | none =>
            have hval : validate_transformer meta entry (newest :: rest) =
                .error (.invalidVersionToken newest.python_compatibility) := by
              simp only [validate_transformer, hcv, hv, ne_eq, not_true_eq_false,
                if_false, hc]
            rw [hval]
            constructor
            · intro h
              exact Except.noConfusion h
            · rintro ⟨n', r', heq, -, -, hcompat⟩
              obtain ⟨rfl, rfl⟩ := hinj n' r' heq
              rcases hcompat with h | ⟨h, -, -⟩
              · rw [hc] at h
                exact Option.noConfusion h
              · rw [hc] at h
                exact Option.noConfusion h
          | some b =>
            cases b with
            | true =>
              have hval : validate_transformer meta entry (newest :: rest) =
                  .ok () := by
                simp only [validate_transformer, hcv, hv, ne_eq, not_true_eq_false,
                  if_false, hc]
              rw [hval]
              constructor
              · intro _
                exact ⟨newest, rest, rfl,
                  (checkVersions_ok_iff meta _ _).mp hcv, hv, Or.inl hc⟩
              · intro _
                rfl
            | false =>
              by_cases hcust : newest.isCustom = true
              · by_cases h2or3 : newest.python_compatibility ≠ "2or3"
                · have hval : validate_transformer meta entry (newest :: rest) =
                      .error (.customPythonCompat entry.name) := by
                    simp only [validate_transformer, hcv, hv, ne_eq,
                      not_true_eq_false, if_false, hc, hcust, Bool.not_true,
                      Bool.false_eq_true, h2or3, not_false_eq_true, if_true]
                  rw [hval]
                  constructor
                  · intro h
                    exact Except.noConfusion h
                  · rintro ⟨n', r', heq, -, -, hcompat⟩
                    obtain ⟨rfl, rfl⟩ := hinj n' r' heq
                    rcases hcompat with h | ⟨-, -, h⟩
                    · rw [hc] at h
                      exact Bool.noConfusion (Option.some.inj h)
                    · exact absurd h h2or3
                · push_neg at h2or3
                  have hval : validate_transformer meta entry (newest :: rest) =
                      .ok () := by
                    simp only [validate_transformer, hcv, hv, ne_eq,
                      not_true_eq_false, if_false, hc, hcust, Bool.not_true,
                      Bool.false_eq_true, h2or3]
                    rfl
                  rw [hval]
                  constructor
                  · intro _
                    exact ⟨newest, rest, rfl,
                      (checkVersions_ok_iff meta _ _).mp hcv, hv,
                      Or.inr ⟨hc, hcust, h2or3⟩⟩
                  · intro _
                    rfl
              · have hcustf : newest.isCustom = false := by
                  cases hcb : newest.isCustom
                  · rfl
                  · exact absurd hcb hcust
                have hval : validate_transformer meta entry (newest :: rest) =
                    .error (.pythonCompat entry.name) := by
                  simp only [validate_transformer, hcv, hv, ne_eq,
                    not_true_eq_false, if_false, hc, hcustf, Bool.not_false,
                    if_true]
                rw [hval]
                constructor
                · intro h
                  exact Except.noConfusion h
                · rintro ⟨n', r', heq, -, -, hcompat⟩
                  obtain ⟨rfl, rfl⟩ := hinj n' r' heq
                  rcases hcompat with h | ⟨-, hcu, -⟩
                  · rw [hc] at h
                    exact Bool.noConfusion (Option.some.inj h)
                  · exact absurd hcu hcust
  · intro t rest h1 h2
    simp only [checkVersions, if_neg h1, if_pos h2]

/-- Claim C1 witness: a well-formed one-version scripted transformer
passes `validate_transformer`. -/
theorem c1_validate_transformer_ok_iff_witness :
    validate_transformer scenarioMeta greeterEntry
      [{ isCustom := false, name := "example.my-package.MyGreeter", version := 1,
         python_compatibility := "36", insert_mode := "", build_num := 0 }] =
      .ok () := by
  apply (c1_validate_transformer_ok_iff scenarioMeta greeterEntry _).1.mpr
  refine ⟨_, [], rfl, ?_, rfl, Or.inl rfl⟩
  intro t ht
  simp only [List.mem_singleton] at ht
  subst ht
  refine ⟨by decide, rfl, ?_⟩
  intro h
  exact Bool.noConfusion h
